import Mathlib

/-!
Verification of the `fieldfuncs` repository (module `fieldfuncs/finite_slab.py`)
against its natural-language specification.

The module is purely functional over numeric inputs.  Python floats are
modelled by real numbers `ℝ`; numpy's element-wise `arctan`, `log` and `exp`
are modelled by `Real.arctan`, `Real.log` and `Real.exp`; element-wise array
operations are modelled by `List.map`.  Exact comparison/typing behaviour of
Python scalars (needed for the `box1d` scalar/array distinction) is modelled
separately over `ℚ` with an explicit value-tag type, so that it stays
decidable and executable.
-/

namespace FiniteSlab

noncomputable section

open Real

/-- Source: `finite_slab.py`, `By_surface(x, w, d, j)`.  Field at the top
surface of the slab.  Direct transcription of the body:
`A = w - 2*x; B = w + 2*x; C = 2*d; mu0_over_4pi = 1e-7;`
`return mu0_over_4pi * j * (-A*arctan(C/A) + B*arctan(C/B) + C/2*log((B²+C²)/(A²+C²)))`. -/
def By_surface (x w d j : ℝ) : ℝ :=
  let A := w - 2*x
  let B := w + 2*x
  let C := 2*d
  let mu0_over_4pi : ℝ := 1e-7;
  mu0_over_4pi * j * (-A * Real.arctan (C / A) +
                      B * Real.arctan (C / B) +
                      C/2 * Real.log ((B^2 + C^2) / (A^2 + C^2)))

/-- Source: `finite_slab.py`, `By_arb(x, y, w, d, j)`.  Field at an arbitrary
point `(x, y)`.  Direct transcription of the body (the local `C = 2*d` is
defined in the source but unused there; it is kept here for fidelity). -/
def By_arb (x y w d j : ℝ) : ℝ :=
  let A := w - 2*x
  let B := w + 2*x
  let C := 2*d
  let D := d - 2*y
  let E := d + 2*y
  let mu0_over_4pi : ℝ := 1e-7;
  -mu0_over_4pi * j * (
      -A * (Real.arctan (D/A) + Real.arctan (E/A))
    + B * (Real.arctan (E/B) + Real.arctan (D/B))
    + y * Real.log ((B^2 + D^2) * (A^2 + E^2) / (B^2 + E^2) / (A^2 + D^2))
    + d/2 * Real.log ((A^2 + E^2) * (A^2 + D^2) / (B^2 + D^2) / (B^2 + E^2)))

/-- Source: `finite_slab.py`, `By_2d_approximation(x, w, d, j)`.  The local
`mu0_over_4pi = 1e-7` is defined in the source but unused; kept for fidelity. -/
def By_2d_approximation (x w d j : ℝ) : ℝ :=
  let mu0_over_4pi : ℝ := 1e-7;
  2e-7 * j * d * Real.log ((w/2 + x) / (w/2 - x))

/-- The surface-field formula exactly as the specification writes it:
`A = w - 2x; B = w + 2x; C = 2d`,
`By = (μ0/4π)·j·[ -A·atan(C/A) + B·atan(C/B) + (C/2)·ln((B²+C²)/(A²+C²)) ]`,
with `μ0/4π` the fixed constant `1e-7`. -/
def By_surface_specFormula (x w d j : ℝ) : ℝ :=
  1e-7 * j * (-(w - 2*x) * Real.arctan ((2*d) / (w - 2*x))
              + (w + 2*x) * Real.arctan ((2*d) / (w + 2*x))
              + (2*d)/2 * Real.log (((w + 2*x)^2 + (2*d)^2) / ((w - 2*x)^2 + (2*d)^2)))

/-- The 2D-approximation formula exactly as the specification writes it:
`By = 2e-7 · j · d · ln((w/2 + x) / (w/2 - x))`. -/
def By_2d_specFormula (x w d j : ℝ) : ℝ :=
  2e-7 * j * d * Real.log ((w/2 + x) / (w/2 - x))

/-- Element-wise mathematical content of `box1d(x, x0, d)`:
`(abs(x - x0) <= d).astype(int)`, i.e. the integer indicator of
`|x - x0| ≤ d` (one array element).  The Python typing behaviour of
`.astype` on scalars is modelled separately below. -/
def box1d (x x0 d : ℝ) : ℤ :=
  if |x - x0| ≤ d then 1 else 0

/-- `box1d` applied element-wise to an array, as the source does for
ndarray input: the output has one entry per input entry. -/
def box1dArr (xs : List ℝ) (x0 d : ℝ) : List ℤ :=
  xs.map (fun t => box1d t x0 d)

end

/-! ## C1: By_surface computes exactly the specified formula -/

/-- **C1.** For every `x, w, d, j`, `By_surface(x, w, d, j)` returns exactly
`1e-7 * j * (-A*atan(C/A) + B*atan(C/B) + (C/2)*ln((B²+C²)/(A²+C²)))` with
`A = w - 2x`, `B = w + 2x`, `C = 2d` — the code agrees with the
specification's formula (same sign convention) at every input. -/
theorem By_surface_matches_spec (x w d j : ℝ) :
    By_surface x w d j = By_surface_specFormula x w d j := rfl

/-! ## C5: By_surface is odd in x -/

/-- **C5.** `By_surface` is an odd function of `x`: for every `x`, every
`w > 0`, `d > 0` and every `j`,
`By_surface(x, w, d, j) = -By_surface(-x, w, d, j)`. -/
theorem By_surface_odd (x w d j : ℝ) (hw : 0 < w) (hd : 0 < d) :
    By_surface x w d j = -By_surface (-x) w d j := by
  simp only [By_surface]
  rw [show w - 2*(-x) = w + 2*x from by ring, show w + 2*(-x) = w - 2*x from by ring]
  rw [show ((w - 2*x)^2 + (2*d)^2) / ((w + 2*x)^2 + (2*d)^2)
        = (((w + 2*x)^2 + (2*d)^2) / ((w - 2*x)^2 + (2*d)^2))⁻¹ from by
      rw [inv_div]]
  rw [Real.log_inv]
  ring

/-- Witness for C5 at the concrete input `x = 1, w = 2, d = 3, j = 4`. -/
theorem By_surface_odd_witness :
    By_surface 1 2 3 4 = -By_surface (-1) 2 3 4 :=
  By_surface_odd 1 2 3 4 (by norm_num) (by norm_num)

/-! ## C6: all three field functions are linear (homogeneous) in j -/

/-- **C6.** Doubling the current density exactly doubles the output of all
three field functions: for every `x, y, w, d, j`,
`By_surface(x,w,d,2j) = 2·By_surface(x,w,d,j)`, and the same for `By_arb`
and `By_2d_approximation`. -/
theorem field_functions_linear_in_j (x y w d j : ℝ) :
    By_surface x w d (2*j) = 2 * By_surface x w d j ∧
    By_arb x y w d (2*j) = 2 * By_arb x y w d j ∧
    By_2d_approximation x w d (2*j) = 2 * By_2d_approximation x w d j := by
  refine ⟨?_, ?_, ?_⟩ <;> (simp only [By_surface, By_arb, By_2d_approximation]; ring)

/-! ## C7: By_2d_approximation formula and its domain of validity -/

/-- **C7.** `By_2d_approximation(x, w, d, j)` returns exactly
`2e-7 * j * d * ln((w/2 + x)/(w/2 - x))`; and for `w > 0` and `|x|` outside
`(-w/2, w/2)` the logarithm's argument is non-positive (the IEEE evaluation
then yields NaN, or ±infinity at the boundary points where the argument's
numerator or denominator vanishes — the denominator vanishing case `x = w/2`
is singled out as the left disjunct). -/
theorem By_2d_approximation_formula_and_domain :
    (∀ x w d j : ℝ, By_2d_approximation x w d j = By_2d_specFormula x w d j) ∧
    (∀ w x : ℝ, 0 < w → w/2 ≤ |x| → (w/2 - x = 0 ∨ (w/2 + x) / (w/2 - x) ≤ 0)) := by
  constructor
  · intro x w d j; rfl
  · intro w x hw hx
    rcases abs_cases x with ⟨hxe, _⟩ | ⟨hxe, _⟩
    · rw [hxe] at hx
      rcases eq_or_lt_of_le hx with heq | hlt
      · exact Or.inl (by linarith)
      · refine Or.inr (div_nonpos_iff.mpr (Or.inl ⟨by linarith, by linarith⟩))
    · rw [hxe] at hx
      refine Or.inr (div_nonpos_iff.mpr (Or.inr ⟨by linarith, by linarith⟩))

/-- Witness for C7: the formula at `x=1, w=2, d=3, j=4`, and the domain fact
at `w = 2, x = 2` (which lies outside `(-1, 1)`). -/
theorem By_2d_approximation_witness :
    By_2d_approximation 1 2 3 4 = By_2d_specFormula 1 2 3 4 ∧
    ((2:ℝ)/2 - 2 = 0 ∨ ((2:ℝ)/2 + 2) / (2/2 - 2) ≤ 0) :=
  ⟨By_2d_approximation_formula_and_domain.1 1 2 3 4,
   By_2d_approximation_formula_and_domain.2 2 2 (by norm_num) (by norm_num)⟩

/-! ## C8: box1d is the inclusive-boundary 0/1 indicator -/

/-- **C8.** `box1d(x, x0, half_width)` returns, element-wise, the integer `1`
exactly when `|x - x0| ≤ half_width` and `0` otherwise; the boundary
`|x - x0| = half_width` is included (value 1); and the array version
produces one integer per input element (same shape). -/
theorem box1d_indicator :
    (∀ x x0 h : ℝ, (box1d x x0 h = 1 ↔ |x - x0| ≤ h) ∧
                   (box1d x x0 h = 0 ↔ ¬ |x - x0| ≤ h)) ∧
    (∀ x x0 h : ℝ, |x - x0| = h → box1d x x0 h = 1) ∧
    (∀ (xs : List ℝ) (x0 h : ℝ), (box1dArr xs x0 h).length = xs.length) := by
  refine ⟨fun x x0 h => ⟨?_, ?_⟩, fun x x0 h hb => ?_, fun xs x0 h => ?_⟩
  · unfold box1d; split <;> simp_all
  · unfold box1d; split <;> simp_all
  · unfold box1d; rw [if_pos hb.le]
  · unfold box1dArr; exact List.length_map _ _

/-- Witness for C8 at the boundary input `x = 3, x0 = 2, half_width = 1`. -/
theorem box1d_indicator_witness : box1d 3 2 1 = 1 :=
  box1d_indicator.2.1 3 2 1 (by norm_num)

/-! ## Python name-resolution model for the module

`finite_slab.py` executes `import numpy as np` and then defines seven
functions; these are the only names bound in the module's global namespace.
A free (non-local) identifier inside a function body is looked up at call
time in the module globals and then in the builtins; if absent in both,
Python raises `NameError`. -/

/-- Names bound at module level in `finite_slab.py`: the `numpy` import and
the seven function definitions.  (There is no other statement in the file.) -/
def moduleGlobals : List String :=
  ["np", "By_surface", "By_arb", "By_2d_approximation", "g1d", "box1d",
   "get_f_amp", "get_f_off"]

/-- Python builtins referenced anywhere in the module (`abs` in `box1d`). -/
def builtinsUsed : List String := ["abs"]

/-- Free global identifiers referenced in the body of `g1d`
(`return twopi**-0.5 / s * np.exp(...)`; `s`, `x`, `x0`, `beam_fwhm` are
locals). -/
def g1dGlobalRefs : List String := ["twopi", "np"]

/-- Free global identifiers referenced in the body of the closure `f`
returned by `get_f_amp` (`np.linspace`, `box1d`, `g1d`, `simps`,
`np.array`; `fwhm`, `w` are closure variables, the rest are locals). -/
def fAmpGlobalRefs : List String := ["np", "box1d", "g1d", "simps"]

/-- Free global identifiers referenced in the body of the closure `f`
returned by `get_f_off`. -/
def fOffGlobalRefs : List String := ["np", "box1d", "g1d", "By_surface", "simps"]

/-- A function body whose free global references include a name bound
neither at module level nor as a builtin raises `NameError` when called. -/
def raisesNameError (refs : List String) : Bool :=
  refs.any (fun n => !(moduleGlobals.contains n || builtinsUsed.contains n))

/-! ## C3: the module is claimed never to raise — but it does -/

/-- **C3** (refuting evaluation).  The claim says no function of the module
raises an exception on finite numeric input.  In fact `g1d` references the
global name `twopi`, and the closures returned by `get_f_amp` and
`get_f_off` reference the global name `simps`, none of which is bound in
the module's global namespace or as a builtin: any call of `g1d`, or of a
closure returned by `get_f_amp`/`get_f_off`, raises `NameError`. -/
theorem module_calls_raise_NameError :
    raisesNameError g1dGlobalRefs = true ∧
    raisesNameError fAmpGlobalRefs = true ∧
    raisesNameError fOffGlobalRefs = true ∧
    ("twopi" ∈ g1dGlobalRefs ∧ "twopi" ∉ moduleGlobals ∧ "twopi" ∉ builtinsUsed) ∧
    ("simps" ∈ fAmpGlobalRefs ∧ "simps" ∉ moduleGlobals ∧ "simps" ∉ builtinsUsed) := by
  refine ⟨rfl, rfl, rfl, ?_, ?_⟩ <;> refine ⟨by decide, by decide, by decide⟩

/-! ## C4: g1d and the normalized Gaussian density -/

noncomputable section

/-- Modelled from the spec: the source body of `g1d` references the global
name `twopi`, which is **not defined anywhere in the module** (calling
`g1d` raises `NameError`); the specification's formula
`(2π)^(-1/2)/s · exp(-(x-x0)²/(2s²))` makes the intended value `2π`. -/
def twopi : ℝ := 2 * Real.pi

/-- Source: `finite_slab.py`, `g1d(x, x0, beam_fwhm)` (with the undefined
global `twopi` modelled by its intended value, see `twopi`):
`s = beam_fwhm / 2.3548; return twopi**-0.5 / s * np.exp(-(x-x0)**2/(2*s**2))`. -/
def g1d (x x0 beam_fwhm : ℝ) : ℝ :=
  let s := beam_fwhm / 2.3548;
  twopi ^ (-0.5 : ℝ) / s * Real.exp (-(x - x0)^2 / (2*s^2))

/-- The Gaussian density formula exactly as the specification writes it:
standard deviation `s = fwhm / 2.3548`, value `(2π)^(-1/2)/s · exp(-(x-x0)²/(2s²))`. -/
def gaussian1d_specFormula (x x0 fwhm : ℝ) : ℝ :=
  (2 * Real.pi) ^ (-(1:ℝ)/2) / (fwhm / 2.3548) *
    Real.exp (-(x - x0)^2 / (2 * (fwhm / 2.3548)^2))

end

/-- **C4.**  The claim says `g1d(x, x0, fwhm)` *returns* the normalized
Gaussian density.  As written the code cannot return at all — its body
references the undefined global `twopi`, so every call raises `NameError`
(first conjunct, over the name-resolution model).  With `twopi` modelled by
its intended value `2π`, the body computes exactly the density formula of
the specification (second conjunct): the claim describes the intent, and
the missing `twopi` binding is the only divergence. -/
theorem g1d_gaussian_density :
    raisesNameError g1dGlobalRefs = true ∧
    ∀ x x0 fwhm : ℝ, g1d x x0 fwhm = gaussian1d_specFormula x x0 fwhm := by
  refine ⟨rfl, fun x x0 fwhm => ?_⟩
  unfold g1d twopi gaussian1d_specFormula
  norm_num

/-! ## C10: box1d on Python scalars — the typed model

The body of `box1d` is `(abs(x - x0) <= d).astype(int)`.  What object the
comparison produces depends on the *Python type* of the operands:
for builtin `int`/`float` scalars it is a builtin `bool`, which has **no**
`astype` attribute (→ `AttributeError`); for a numpy scalar (`np.float64`)
it is an `np.bool_`, and for an ndarray an ndarray of bools — both of which
do have `astype`.  The model below records the numeric value together with
its Python type tag, over `ℚ` (floats are rationals) so everything is
decidable. -/

/-- A scalar (non-array) numeric Python value: a builtin `int`, a builtin
`float`, or a numpy scalar `np.float64`. -/
inductive PyNum where
  | pyInt : ℤ → PyNum
  | pyFloat : ℚ → PyNum
  | npFloat64 : ℚ → PyNum
deriving DecidableEq

/-- The numeric value carried by a `PyNum`. -/
def PyNum.val : PyNum → ℚ
  | .pyInt n => (n : ℚ)
  | .pyFloat q => q
  | .npFloat64 q => q

/-- Whether the value is a numpy scalar (comparison then yields `np.bool_`). -/
def PyNum.isNumpy : PyNum → Bool
  | .npFloat64 _ => true
  | _ => false

/-- Result of a Python `<=` comparison: a builtin `bool` or an `np.bool_`. -/
inductive PyBoolVal where
  | pyBool : Bool → PyBoolVal
  | npBool : Bool → PyBoolVal
deriving DecidableEq

/-- The error raised by attribute lookup on an object without the attribute. -/
inductive PyError where
  | attributeError : PyError
deriving DecidableEq

/-- `abs(x - x0) <= d` for a scalar `x`: builtin operands compare to a
builtin `bool`, numpy scalar operands to an `np.bool_`. -/
def absLeCompare (x : PyNum) (x0 d : ℚ) : PyBoolVal :=
  if x.isNumpy then .npBool (decide (|x.val - x0| ≤ d))
  else .pyBool (decide (|x.val - x0| ≤ d))

/-- `.astype(int)`: builtin `bool` has no such attribute (`AttributeError`);
`np.bool_` converts to the integer 0/1. -/
def PyBoolVal.astypeInt : PyBoolVal → Except PyError ℤ
  | .pyBool _ => .error .attributeError
  | .npBool b => .ok (if b then 1 else 0)

/-- `box1d(x, x0, d)` evaluated at a scalar (non-array) `x`, per the typed
model: `(abs(x - x0) <= d).astype(int)`. -/
def box1dScalar (x : PyNum) (x0 d : ℚ) : Except PyError ℤ :=
  (absLeCompare x x0 d).astypeInt

/-- **C10 counterexample.**  The claim says *every* scalar (non-array)
numeric input makes `box1d` raise `AttributeError`.  But a numpy scalar
`np.float64(0)` is a scalar, non-array numeric input, and on it the
comparison yields `np.bool_`, which does have `astype`: the call returns
the value `1` instead of raising. -/
theorem box1dScalar_numpy_scalar_returns :
    box1dScalar (.npFloat64 0) 0 1 = .ok 1 := by
  norm_num [box1dScalar, absLeCompare, PyNum.isNumpy, PyNum.val, PyBoolVal.astypeInt]

/-- **C10 (amended).**  On builtin Python scalars (`int`, `float`) the
comparison in `box1d` produces a builtin `bool`, which has no `astype`
method, so the call raises `AttributeError`; on numpy scalars
(`np.float64`) the comparison produces an `np.bool_` and the call returns
the 0/1 indicator value.  So `box1d` raises for builtin scalars but
produces a value for numpy scalars and numpy arrays. -/
theorem box1dScalar_typed_behaviour :
    (∀ (n : ℤ) (x0 d : ℚ), box1dScalar (.pyInt n) x0 d = .error .attributeError) ∧
    (∀ (q x0 d : ℚ), box1dScalar (.pyFloat q) x0 d = .error .attributeError) ∧
    (∀ (q x0 d : ℚ), box1dScalar (.npFloat64 q) x0 d
        = .ok (if |q - x0| ≤ d then 1 else 0)) := by
  refine ⟨fun n x0 d => rfl, fun q x0 d => rfl, fun q x0 d => ?_⟩
  simp only [box1dScalar, absLeCompare, PyNum.isNumpy, PyNum.val, PyBoolVal.astypeInt]
  by_cases h : |q - x0| ≤ d <;> simp [h]

/-! ## C9: the amplitude-model factory get_f_amp

The per-position loop of the returned closure (append into a growable list,
then convert to an array) is modelled by `List.map`.  `np.linspace` and
`scipy.integrate.simps` are external library functions, modelled below. -/

noncomputable section

/-- `np.linspace(a, b, n)`: `n` evenly spaced points from `a` to `b`,
point `k` being `a + (b - a)·k/(n-1)`. -/
def linspace (a b : ℝ) (n : ℕ) : List ℝ :=
  (List.range n).map (fun k => a + (b - a) * k / ((n : ℝ) - 1))

/-- Composite Simpson core over uniformly spaced samples: pairs of
consecutive intervals contribute `dx/3·(y₀ + 4y₁ + y₂)`; a lone trailing
sample (or fewer than three samples) contributes nothing. -/
def simpsonSum (dx : ℝ) : List ℝ → ℝ
  | y0 :: y1 :: y2 :: rest => dx / 3 * (y0 + 4*y1 + y2) + simpsonSum dx (y2 :: rest)
  | _ => 0

/-- Trapezoid rule over the first interval of the sample list. -/
def trapFirst (dx : ℝ) : List ℝ → ℝ
  | a :: b :: _ => dx * (a + b) / 2
  | _ => 0

/-- Modelled from the spec: `scipy.integrate.simps(y, x)` — the module
calls the name `simps` without importing it (a `NameError` at run time; the
intended routine is scipy's composite Simpson quadrature, per the spec's
"composite Simpson's-rule quadrature").  Uniform spacing is read off the
first two abscissae; an odd sample count uses plain composite Simpson, an
even sample count scipy's default averaged ('avg') correction. -/
def simps (ys xs : List ℝ) : ℝ :=
  let dx := match xs with | a :: b :: _ => b - a | _ => 0;
  if ys.length % 2 = 1 then simpsonSum dx ys
  else (simpsonSum dx ys.dropLast + trapFirst dx ys.reverse
        + simpsonSum dx ys.tail + trapFirst dx ys) / 2

/-- Source: `finite_slab.py`, `get_f_amp(fwhm, w)` (with the un-imported
`simps` modelled by `simps` above and `twopi` inside `g1d` by `2π`).  The
returned closure maps each scan position `xi` to the Simpson integral of
`height·box1d(xx, center, w/2) · g1d(xx, xi, fwhm)` over the window
`xx = linspace(xi - 2·fwhm, xi + 2·fwhm, 200)`. -/
def get_f_amp (fwhm w : ℝ) : List ℝ → ℝ → ℝ → List ℝ :=
  fun x center height =>
    x.map (fun xi =>
      let xrange := 2 * fwhm;
      let xx := linspace (xi - xrange) (xi + xrange) 200;
      simps (xx.map (fun t => height * (box1d t center (w/2) : ℝ) * g1d t xi fwhm)) xx)

/-- Source: `finite_slab.py`, `get_f_off(fwhm, w, d, I)` (same modelling of
`simps`/`twopi`): `j = I/(w·d)` is computed once outside the closure; each
scan position gets a 500-point window. -/
def get_f_off (fwhm w d I : ℝ) : List ℝ → ℝ → ℝ → List ℝ :=
  let j := I / (w * d);
  fun x center height =>
    x.map (fun xi =>
      let xrange := 2 * fwhm;
      let xx := linspace (xi - xrange) (xi + xrange) 500;
      simps (xx.map (fun t => (box1d t center (w/2) : ℝ) * g1d t xi fwhm *
        (height * By_surface (t - center) w d j))) xx)

end

/-- **C9.**  The claim says the closure returned by `get_f_amp` returns one
Simpson-integrated value per scan position, in input order.  As written the
closure cannot return at all: it references the never-imported global
`simps` (and `g1d` references the undefined `twopi`), so every call raises
`NameError` (first conjunct).  Over the intent model — `simps` modelled as
scipy's composite Simpson quadrature and `twopi` as `2π` — the closure
returns exactly one value per input position (second conjunct), and for
every index the value at position `i` is the Simpson integral over the
200-point window `[xi - 2·fwhm, xi + 2·fwhm]` of the height-scaled box
indicator times the Gaussian centred at `xi` (third conjunct, which also
gives the order preservation). -/
theorem get_f_amp_structure (fwhm w : ℝ) (xs : List ℝ) (c h : ℝ) :
    raisesNameError fAmpGlobalRefs = true ∧
    (get_f_amp fwhm w xs c h).length = xs.length ∧
    ∀ i : ℕ, (get_f_amp fwhm w xs c h)[i]? =
      (xs[i]?).map (fun xi =>
        simps ((linspace (xi - 2*fwhm) (xi + 2*fwhm) 200).map
                (fun t => h * (box1d t c (w/2) : ℝ) * g1d t xi fwhm))
              (linspace (xi - 2*fwhm) (xi + 2*fwhm) 200)) := by
  refine ⟨rfl, ?_, ?_⟩
  · simp [get_f_amp]
  · intro i
    simp [get_f_amp]

/-! ## C2: By_arb at the surface y = d/2 versus By_surface

Helper bounds on `arctan` (alternating-series truncations, proved by
monotonicity from the derivative `1/(1+t²)`), and the exact algebraic
relation between `By_arb(x, d/2, …)` and `By_surface(x, …)`. -/

/-- For `0 ≤ u`, `arctan u ≤ u`. -/
theorem arctan_le_linear (u : ℝ) (hu : 0 ≤ u) : Real.arctan u ≤ u := by
  have hmono : Monotone (fun t : ℝ => t - Real.arctan t) := by
    apply monotone_of_deriv_nonneg
    · exact differentiable_id.sub Real.differentiable_arctan
    · intro t
      have hd : HasDerivAt (fun t : ℝ => t - Real.arctan t) (1 - 1/(1+t^2)) t :=
        (hasDerivAt_id' t).sub (Real.hasDerivAt_arctan t)
      rw [hd.deriv]
      have h1 : (0:ℝ) < 1 + t^2 := by positivity
      have h2 : 1/(1+t^2) ≤ 1 := by rw [div_le_one h1]; nlinarith [sq_nonneg t]
      linarith
  have h0 := hmono hu
  simp only [Real.arctan_zero, sub_zero] at h0
  linarith

/-- For `0 ≤ u`, `u - u³/3 ≤ arctan u`. -/
theorem cubic_le_arctan (u : ℝ) (hu : 0 ≤ u) : u - u^3/3 ≤ Real.arctan u := by
  have hmono : Monotone (fun t : ℝ => Real.arctan t - (t - t^3/3)) := by
    apply monotone_of_deriv_nonneg
    · exact Real.differentiable_arctan.sub
        (differentiable_id.sub ((differentiable_pow 3).div_const 3))
    · intro t
      have hd : HasDerivAt (fun t : ℝ => Real.arctan t - (t - t^3/3))
          (1/(1+t^2) - (1 - (3:ℕ)*t^(3-1)/3)) t :=
        (Real.hasDerivAt_arctan t).sub
          ((hasDerivAt_id' t).sub ((hasDerivAt_pow 3 t).div_const 3))
      rw [hd.deriv]
      have h1 : (0:ℝ) < 1 + t^2 := by positivity
      have h2 : 1 - t^2 ≤ 1/(1+t^2) := by
        rw [le_div_iff h1]; nlinarith [sq_nonneg (t^2)]
      push_cast
      nlinarith [h2]
  have h0 := hmono hu
  simp only [Real.arctan_zero] at h0
  norm_num at h0
  linarith

/-- For `0 ≤ u`, `arctan u ≤ u - u³/3 + u⁵/5`. -/
theorem arctan_le_quintic (u : ℝ) (hu : 0 ≤ u) :
    Real.arctan u ≤ u - u^3/3 + u^5/5 := by
  have hmono : Monotone (fun t : ℝ => (t - t^3/3 + t^5/5) - Real.arctan t) := by
    apply monotone_of_deriv_nonneg
    · exact ((differentiable_id.sub ((differentiable_pow 3).div_const 3)).add
        ((differentiable_pow 5).div_const 5)).sub Real.differentiable_arctan
    · intro t
      have hd : HasDerivAt (fun t : ℝ => (t - t^3/3 + t^5/5) - Real.arctan t)
          ((1 - (3:ℕ)*t^(3-1)/3 + (5:ℕ)*t^(5-1)/5) - 1/(1+t^2)) t :=
        (((hasDerivAt_id' t).sub ((hasDerivAt_pow 3 t).div_const 3)).add
          ((hasDerivAt_pow 5 t).div_const 5)).sub (Real.hasDerivAt_arctan t)
      rw [hd.deriv]
      have h1 : (0:ℝ) < 1 + t^2 := by positivity
      have h2 : 1/(1+t^2) ≤ 1 - t^2 + t^4 := by
        rw [div_le_iff h1]; nlinarith [sq_nonneg (t^3), sq_nonneg t]
      push_cast
      nlinarith [h2]
  have h0 := hmono hu
  simp only [Real.arctan_zero] at h0
  norm_num at h0
  linarith

/-- The exact relation between the two analytic fields on the surface
`y = d/2` (away from the slab edges `x = ±w/2`): substituting `y = d/2`
into `By_arb` gives `D = 0`, `E = 2d`, and the two log terms combine to
`-d·ln((B²+C²)/(A²+C²))` — the *opposite* sign of the log term of
`By_surface` — so `By_arb` differs from `-By_surface` by the exact excess
`2e-7·j·d·ln((B²+C²)/(A²+C²))`. -/
theorem By_arb_surface_core (x w d j : ℝ)
    (hA : w - 2*x ≠ 0) (hB : w + 2*x ≠ 0) :
    By_arb x (d/2) w d j =
      -By_surface x w d j +
        2e-7 * j * d * Real.log (((w + 2*x)^2 + (2*d)^2) / ((w - 2*x)^2 + (2*d)^2)) := by
  have hA2 : (0:ℝ) < (w - 2*x)^2 := sq_pos_of_ne_zero hA
  have hB2 : (0:ℝ) < (w + 2*x)^2 := sq_pos_of_ne_zero hB
  have hP : (0:ℝ) < (w - 2*x)^2 + (2*d)^2 := add_pos_of_pos_of_nonneg hA2 (sq_nonneg _)
  have hQ : (0:ℝ) < (w + 2*x)^2 + (2*d)^2 := add_pos_of_pos_of_nonneg hB2 (sq_nonneg _)
  simp only [By_arb, By_surface]
  rw [show d - 2*(d/2) = 0 from by ring, show d + 2*(d/2) = 2*d from by ring]
  simp only [zero_div, Real.arctan_zero, add_zero, zero_add,
    show ((0:ℝ)^2 = 0) from by norm_num]
  rw [show (w + 2*x)^2 * ((w - 2*x)^2 + (2*d)^2) / ((w + 2*x)^2 + (2*d)^2) / (w - 2*x)^2
        = (((w - 2*x)^2 + (2*d)^2) / ((w + 2*x)^2 + (2*d)^2)) * ((w + 2*x)^2 / (w - 2*x)^2)
      from by ring]
  rw [show ((w - 2*x)^2 + (2*d)^2) * (w - 2*x)^2 / (w + 2*x)^2 / ((w + 2*x)^2 + (2*d)^2)
        = (((w - 2*x)^2 + (2*d)^2) / ((w + 2*x)^2 + (2*d)^2)) * ((w - 2*x)^2 / (w + 2*x)^2)
      from by ring]
  rw [Real.log_mul (ne_of_gt (div_pos hP hQ)) (ne_of_gt (div_pos hB2 hA2))]
  rw [Real.log_mul (ne_of_gt (div_pos hP hQ)) (ne_of_gt (div_pos hA2 hB2))]
  rw [show (w - 2*x)^2 / (w + 2*x)^2 = ((w + 2*x)^2 / (w - 2*x)^2)⁻¹ from by
    rw [inv_div]]
  rw [Real.log_inv]
  rw [show ((w - 2*x)^2 + (2*d)^2) / ((w + 2*x)^2 + (2*d)^2)
        = (((w + 2*x)^2 + (2*d)^2) / ((w - 2*x)^2 + (2*d)^2))⁻¹ from by
    rw [inv_div]]
  rw [Real.log_inv]
  ring

/-- **C2 counterexample.**  At the representative point `x = w/4` with
`w = 0.01`, `d = 0.001`, `j = 1e6` and `y = d/2 = 0.0005`, the value
`By_arb(x, d/2, w, d, j)` differs from `By_surface(x, w, d, j)` by about 8%
relative, and from `-By_surface(x, w, d, j)` by about 190% relative — both
overwhelmingly beyond the claimed 1e-6 relative tolerance.  (Exactly:
`By_arb + By_surface = 2e-4·ln(229/29) ≈ 4.13e-4` while
`|By_surface| ≤ 2.2e-4`, and `By_arb - By_surface = (arctan(2/5) -
3·arctan(2/15))/1000 ≈ -1.7e-5` while `1e-6·|By_surface| ≤ 2.2e-10`.) -/
theorem By_arb_surface_mismatch :
    1e-6 * |By_surface (1/400) (1/100) (1/1000) 1000000| <
      |By_arb (1/400) (1/2000) (1/100) (1/1000) 1000000 -
        By_surface (1/400) (1/100) (1/1000) 1000000| ∧
    1e-6 * |By_surface (1/400) (1/100) (1/1000) 1000000| <
      |By_arb (1/400) (1/2000) (1/100) (1/1000) 1000000 +
        By_surface (1/400) (1/100) (1/1000) 1000000| := by
  have ht1_lb : (142/375 : ℝ) ≤ Real.arctan (2/5) := by
    have h := cubic_le_arctan (2/5) (by norm_num); norm_num at h; linarith
  have ht1_ub : Real.arctan (2/5) ≤ 17846/46875 := by
    have h := arctan_le_quintic (2/5) (by norm_num); norm_num at h; linarith
  have ht2_lb : (1342/10125 : ℝ) ≤ Real.arctan (2/15) := by
    have h := cubic_le_arctan (2/15) (by norm_num); norm_num at h; linarith
  have ht2_ub : Real.arctan (2/15) ≤ 2/15 := arctan_le_linear (2/15) (by norm_num)
  have hl_lb : (0.6931471803 : ℝ) < Real.log (229/29) := by
    have h2 : Real.log 2 ≤ Real.log (229/29) := Real.log_le_log (by norm_num) (by norm_num)
    linarith [Real.log_two_gt_d9]
  have hl_ub : Real.log (229/29) < 2.08 := by
    have h8 : Real.log (229/29) ≤ Real.log 8 := Real.log_le_log (by norm_num) (by norm_num)
    have h83 : Real.log 8 = 3 * Real.log 2 := by
      rw [show (8:ℝ) = 2^3 from by norm_num, Real.log_pow]; push_cast; ring
    linarith [Real.log_two_lt_d9]
  have hS : By_surface (1/400) (1/100) (1/1000) 1000000
      = 1/10 * (-(1/200) * Real.arctan (2/5) + 3/200 * Real.arctan (2/15)
                + 1/1000 * Real.log (229/29)) := by
    simp only [By_surface]
    norm_num
  have hId := By_arb_surface_core (1/400) (1/100) (1/1000) 1000000
    (by norm_num) (by norm_num)
  norm_num at hId
  have hS_pos : 0 < By_surface (1/400) (1/100) (1/1000) 1000000 := by
    rw [hS]; linarith
  have hsum : By_arb (1/400) (1/2000) (1/100) (1/1000) 1000000 +
      By_surface (1/400) (1/100) (1/1000) 1000000
      = 1/5000 * Real.log (229/29) := by
    rw [hId]; ring
  have hdiff : By_arb (1/400) (1/2000) (1/100) (1/1000) 1000000 -
      By_surface (1/400) (1/100) (1/1000) 1000000
      = 1/1000 * Real.arctan (2/5) - 3/1000 * Real.arctan (2/15) := by
    rw [hId, hS]; ring
  have hdiff_neg : By_arb (1/400) (1/2000) (1/100) (1/1000) 1000000 -
      By_surface (1/400) (1/100) (1/1000) 1000000 < 0 := by
    rw [hdiff]; linarith
  have hsum_pos : 0 < By_arb (1/400) (1/2000) (1/100) (1/1000) 1000000 +
      By_surface (1/400) (1/100) (1/1000) 1000000 := by
    rw [hsum]; linarith
  constructor
  · rw [abs_of_pos hS_pos, abs_of_neg hdiff_neg, hdiff, hS]
    linarith
  · rw [abs_of_pos hS_pos, abs_of_pos hsum_pos, hsum, hS]
    linarith

/-- **C2 (amended).**  `By_arb(x, d/2, w, d, j)` does *not* reduce to
`±By_surface(x, w, d, j)` within 1e-6 relative tolerance at the claimed
representative points (it does only at `x = 0`, where both vanish).
Instead, away from the slab edges the exact relation is
`By_arb(x, d/2, w, d, j) = -By_surface(x, w, d, j)
  + 2e-7·j·d·ln(((w+2x)² + (2d)²)/((w-2x)² + (2d)²))`,
the excess term coming from the sign of the combined log terms. -/
theorem By_arb_surface_identity (x w d j : ℝ)
    (hA : w - 2*x ≠ 0) (hB : w + 2*x ≠ 0) :
    By_arb x (d/2) w d j =
      -By_surface x w d j +
        2e-7 * j * d * Real.log (((w + 2*x)^2 + (2*d)^2) / ((w - 2*x)^2 + (2*d)^2)) :=
  By_arb_surface_core x w d j hA hB

/-- Witness for the amended C2 identity at `x = 1, w = 4, d = 2, j = 1`. -/
theorem By_arb_surface_identity_witness :
    By_arb 1 (2/2) 4 2 1 =
      -By_surface 1 4 2 1 +
        2e-7 * 1 * 2 * Real.log (((4 + 2*1)^2 + (2*2)^2) / ((4 - 2*1)^2 + (2*2)^2)) :=
  By_arb_surface_identity 1 4 2 1 (by norm_num) (by norm_num)

end FiniteSlab
